import Mathlib

/-!
Verification of the hybrid retrieval core of the Oros biomedical
knowledge platform against its natural-language specification.

The retrieval core is the stored procedure hybrid_search in
scripts/init-db.sql.  It combines a vector-similarity candidate list and
a lexical (full-text) candidate list with Reciprocal Rank Fusion (RRF).

Shallow embedding conventions:
  * the tables documents and chunks become Lean structures; SQL NULL
    columns become Option fields;
  * the pgvector distance operator, the tsquery match operator and
    ts_rank are PostgreSQL built-ins external to this repository, so
    they are parameters of the embedding (dist, tsMatch, tsRank);
  * SQL ORDER BY does not fix the relative order of rows whose sort
    keys are equal, and ROW_NUMBER() over such an ORDER BY is likewise
    only constrained up to tie order.  Each CTE and the final SELECT
    are therefore embedded as relations: a list is an admissible result
    iff it arises from some permutation of the eligible rows that is
    consistent with the ORDER BY key;
  * FLOAT arithmetic in the rrf_score expression is modelled exactly
    over ℚ.
-/

namespace Oros

/-- A row of the documents table (the columns hybrid_search and the
claims read; other columns are omitted).  SQL NULLs are Options. -/
structure Document where
  id : Nat
  journal : Option String
  publicationDate : Option Int
  articleType : Option String
  processingStatus : String
  qualityScore : Option ℚ
  retracted : Bool
deriving DecidableEq

/-- A row of the chunks table (the columns hybrid_search reads).
embedding is NULL-able: vector(1536) models as an optional list. -/
structure Chunk where
  id : Nat
  documentId : Nat
  content : String
  sectionTitle : Option String
  embedding : Option (List ℚ)
deriving DecidableEq

/-- The corpus state: the two tables hybrid_search queries. -/
structure Corpus where
  documents : List Document
  chunks : List Chunk
deriving DecidableEq

/-- The filter parameters of hybrid_search: filter_journals TEXT[]
DEFAULT NULL, filter_date_from DATE DEFAULT NULL, filter_date_to DATE
DEFAULT NULL.  These are the only filters the function accepts. -/
structure Filters where
  journals : Option (List String)
  dateFrom : Option Int
  dateTo : Option Int
deriving DecidableEq

/-- The three filter conjuncts shared verbatim by the WHERE clauses of
both CTEs:
  (filter_journals IS NULL OR d.journal = ANY(filter_journals))
  AND (filter_date_from IS NULL OR d.publication_date >= filter_date_from)
  AND (filter_date_to IS NULL OR d.publication_date <= filter_date_to).
A NULL journal or publication_date makes the comparison non-true, so
the row is excluded when that filter is supplied. -/
def passesFilters (f : Filters) (d : Document) : Bool :=
  (match f.journals with
   | none => true
   | some js => match d.journal with
     | none => false
     | some j => js.contains j) &&
  (match f.dateFrom with
   | none => true
   | some lo => match d.publicationDate with
     | none => false
     | some p => decide (lo ≤ p)) &&
  (match f.dateTo with
   | none => true
   | some hi => match d.publicationDate with
     | none => false
     | some p => decide (p ≤ hi))

/-- The join FROM chunks c JOIN documents d ON c.document_id = d.id. -/
def joinPairs (corpus : Corpus) : List (Chunk × Document) :=
  corpus.chunks.flatMap fun c =>
    (corpus.documents.filter fun d => d.id == c.documentId).map fun d => (c, d)

/-- Rows satisfying the WHERE clause of the vector_results CTE:
c.embedding IS NOT NULL AND d.processing_status = 'completed' AND the
shared filters. -/
def vectorEligible (corpus : Corpus) (f : Filters) : List (Chunk × Document) :=
  (joinPairs corpus).filter fun cd =>
    cd.1.embedding.isSome && (cd.2.processingStatus == "completed") && passesFilters f cd.2

/-- Rows satisfying the WHERE clause of the keyword_results CTE:
to_tsvector(content) @@ plainto_tsquery(query_text) AND
d.processing_status = 'completed' AND the shared filters.
tsMatch abstracts the text-search match operator. -/
def keywordEligible (corpus : Corpus) (tsMatch : String → String → Bool)
    (queryText : String) (f : Filters) : List (Chunk × Document) :=
  (joinPairs corpus).filter fun cd =>
    tsMatch cd.1.content queryText && (cd.2.processingStatus == "completed") &&
      passesFilters f cd.2

/-- A row of the vector_results CTE: chunk columns, the similarity
1 - (embedding <=> query_embedding), and the ROW_NUMBER() rank. -/
structure VRow where
  id : Nat
  document_id : Nat
  content : String
  section_title : Option String
  similarity : ℚ
  rank : Nat
deriving DecidableEq

/-- A row of the keyword_results CTE: chunk columns, the
ts_rank score, and the ROW_NUMBER() rank. -/
structure KRow where
  id : Nat
  document_id : Nat
  content : String
  section_title : Option String
  rank_score : ℚ
  rank : Nat
deriving DecidableEq

/-- Build vector_results rows from an ordered row list, assigning
ROW_NUMBER() values starting at r. -/
def mkVRowsAux (dist : List ℚ → List ℚ → ℚ) (qe : List ℚ) :
    Nat → List (Chunk × Document) → List VRow
  | _, [] => []
  | r, (c, _) :: l =>
    ⟨c.id, c.documentId, c.content, c.sectionTitle,
     1 - dist (c.embedding.getD []) qe, r⟩ :: mkVRowsAux dist qe (r + 1) l

/-- vector_results rows with 1-based ranks. -/
def mkVRows (dist : List ℚ → List ℚ → ℚ) (qe : List ℚ)
    (l : List (Chunk × Document)) : List VRow :=
  mkVRowsAux dist qe 1 l

/-- Build keyword_results rows from an ordered row list, assigning
ROW_NUMBER() values starting at r.  tsRank abstracts
ts_rank(to_tsvector(content), plainto_tsquery(query_text)). -/
def mkKRowsAux (tsRank : String → String → ℚ) (queryText : String) :
    Nat → List (Chunk × Document) → List KRow
  | _, [] => []
  | r, (c, _) :: l =>
    ⟨c.id, c.documentId, c.content, c.sectionTitle,
     tsRank c.content queryText, r⟩ :: mkKRowsAux tsRank queryText (r + 1) l

/-- keyword_results rows with 1-based ranks. -/
def mkKRows (tsRank : String → String → ℚ) (queryText : String)
    (l : List (Chunk × Document)) : List KRow :=
  mkKRowsAux tsRank queryText 1 l

/-- The vector_results CTE as a relation: res is admissible iff it is
built from some ordering of the eligible rows that is sorted by
ascending distance to the query embedding, truncated to
match_count * 2, with ROW_NUMBER() ranks 1, 2, ... in that order. -/
def IsVectorResults (corpus : Corpus) (dist : List ℚ → List ℚ → ℚ) (qe : List ℚ)
    (f : Filters) (matchCount : Nat) (res : List VRow) : Prop :=
  ∃ l : List (Chunk × Document),
    l.Perm (vectorEligible corpus f) ∧
    l.Pairwise (fun p q => dist (p.1.embedding.getD []) qe ≤ dist (q.1.embedding.getD []) qe) ∧
    res = mkVRows dist qe (l.take (matchCount * 2))

/-- The keyword_results CTE as a relation: ordered by ts_rank
descending, truncated to match_count * 2, with ROW_NUMBER() ranks. -/
def IsKeywordResults (corpus : Corpus) (tsMatch : String → String → Bool)
    (tsRank : String → String → ℚ) (queryText : String)
    (f : Filters) (matchCount : Nat) (res : List KRow) : Prop :=
  ∃ l : List (Chunk × Document),
    l.Perm (keywordEligible corpus tsMatch queryText f) ∧
    l.Pairwise (fun p q => tsRank q.1.content queryText ≤ tsRank p.1.content queryText) ∧
    res = mkKRows tsRank queryText (l.take (matchCount * 2))

/-- One RRF summand: 1.0 / (60 + rank), over ℚ. -/
def rrfTerm (r : Nat) : ℚ := 1 / (60 + (r : ℚ))

/-- The rrf_score expression of the combined CTE:
vector_weight * (1.0 / (60 + COALESCE(v.rank, 1000))) +
keyword_weight * (1.0 / (60 + COALESCE(k.rank, 1000))),
applied to the already-COALESCEd ranks. -/
def rrfScore (vw kw : ℚ) (vr kr : Nat) : ℚ :=
  vw * rrfTerm vr + kw * rrfTerm kr

/-- A row of the combined CTE (also the row type hybrid_search
returns). -/
structure CombinedRow where
  chunk_id : Nat
  document_id : Nat
  content : String
  section_title : Option String
  vector_rank : Nat
  keyword_rank : Nat
  rrf_score : ℚ
  vector_similarity : Option ℚ
deriving DecidableEq

/-- The SELECT list of the combined CTE, for one joined pair.  The
COALESCE defaults are taken from the present side; a FULL OUTER JOIN
never produces a row with both sides NULL, so the (none, none) case is
dead (its value is arbitrary). -/
def combineRow (vw kw : ℚ) : Option VRow × Option KRow → CombinedRow
  | (some v, k) =>
    { chunk_id := v.id
      document_id := v.document_id
      content := v.content
      section_title := v.section_title
      vector_rank := v.rank
      keyword_rank := ((k.map KRow.rank).getD 1000)
      rrf_score := rrfScore vw kw v.rank ((k.map KRow.rank).getD 1000)
      vector_similarity := some v.similarity }
  | (none, some k) =>
    { chunk_id := k.id
      document_id := k.document_id
      content := k.content
      section_title := k.section_title
      vector_rank := 1000
      keyword_rank := k.rank
      rrf_score := rrfScore vw kw 1000 k.rank
      vector_similarity := none }
  | (none, none) =>
    { chunk_id := 0, document_id := 0, content := "", section_title := none
      vector_rank := 1000, keyword_rank := 1000
      rrf_score := rrfScore vw kw 1000 1000, vector_similarity := none }

/-- FULL OUTER JOIN keyword_results k ON v.id = k.id: every vector row
paired with its matching keyword row (if any), plus every unmatched
keyword row.  Within each CTE the id column is the chunks primary key,
so matches are unique when ids are distinct. -/
def fullOuterJoin (vres : List VRow) (kres : List KRow) :
    List (Option VRow × Option KRow) :=
  (vres.map fun v => (some v, kres.find? fun k => k.id == v.id)) ++
  ((kres.filter fun k => !(vres.any fun v => v.id == k.id)).map
    fun k => ((none : Option VRow), some k))

/-- All rows of the combined CTE. -/
def combinedRows (vw kw : ℚ) (vres : List VRow) (kres : List KRow) :
    List CombinedRow :=
  (fullOuterJoin vres kres).map (combineRow vw kw)

/-- A list consistent with ORDER BY combined.rrf_score DESC. -/
def ScoreSortedDesc (l : List CombinedRow) : Prop :=
  l.Pairwise fun a b => b.rrf_score ≤ a.rrf_score

/-- The final SELECT of hybrid_search as a relation on the two CTE
outputs: out is admissible iff it is the match_count-prefix of some
ordering of the combined rows consistent with ORDER BY rrf_score DESC
(the ORDER BY names no tie-break key). -/
def IsFusedOutput (vw kw : ℚ) (vres : List VRow) (kres : List KRow)
    (matchCount : Nat) (out : List CombinedRow) : Prop :=
  ∃ l : List CombinedRow,
    l.Perm (combinedRows vw kw vres kres) ∧ ScoreSortedDesc l ∧
    out = l.take matchCount

/-- hybrid_search end to end: some admissible pair of CTE results,
fused. -/
def IsHybridSearchResult (corpus : Corpus) (dist : List ℚ → List ℚ → ℚ)
    (tsMatch : String → String → Bool) (tsRank : String → String → ℚ)
    (qe : List ℚ) (queryText : String) (matchCount : Nat) (vw kw : ℚ)
    (f : Filters) (out : List CombinedRow) : Prop :=
  ∃ vres kres, IsVectorResults corpus dist qe f matchCount vres ∧
    IsKeywordResults corpus tsMatch tsRank queryText f matchCount kres ∧
    IsFusedOutput vw kw vres kres matchCount out

/-- The 1-based position of p in a list of ids, or the sentinel 1000
when p is absent (the COALESCE(rank, 1000) policy constant). -/
def posRank (ids : List Nat) (p : Nat) : Nat :=
  match ids.findIdx? (· == p) with
  | some i => i + 1
  | none => 1000

/-- The rank hybrid_search uses for a passage on the vector side:
its CTE row's rank when present, the sentinel 1000 otherwise. -/
def rankFieldV (vres : List VRow) (p : Nat) : Nat :=
  match vres.find? (fun v => v.id == p) with
  | some v => v.rank
  | none => 1000

/-- The rank hybrid_search uses for a passage on the keyword side. -/
def rankFieldK (kres : List KRow) (p : Nat) : Nat :=
  match kres.find? (fun k => k.id == p) with
  | some k => k.rank
  | none => 1000

/-! ### Answer Synthesizer (Retrieval service rag.py)

The Answer Synthesizer's implementation (rag.py of the retrieval
service) is not part of the sources here; only the repository's
documentation describes it.  Its citation-validation step is therefore
modelled from the spec.  Generated text is modelled at token level: a
token is either a word or a bracketed numeric citation marker. -/

/-- A token of generated answer text: a plain word or a citation
marker such as the marker written with index 2. -/
inductive GenToken where
  | word : String → GenToken
  | marker : Nat → GenToken
deriving DecidableEq

/-- A passage entry of the context window: identifier plus the fused
score carried from retrieval. -/
structure CtxPassage where
  passageId : Nat
  fusedScore : ℚ
deriving DecidableEq

/-- The numbered context window handed to the generation backend:
its i-th passage (0-based) owns the citation index i+1. -/
structure ContextWindow where
  passages : List CtxPassage
deriving DecidableEq

/-- A citation of a synthesized answer. -/
structure Citation where
  passageId : Nat
  relevanceScore : ℚ
deriving DecidableEq

/-- A synthesized answer: validated text plus its citations. -/
structure Answer where
  text : List GenToken
  citations : List Citation
deriving DecidableEq

/-- Modelled from the spec: post-generation validation step 2 of the
Answer Synthesizer (rag.py, not among the sources) — any marker
referencing an index outside 1..len(passages) is stripped from the
output text. -/
def stripInvalidMarkers (n : Nat) (text : List GenToken) : List GenToken :=
  text.filter fun t =>
    match t with
    | .marker k => decide (1 ≤ k ∧ k ≤ n)
    | .word _ => true

/-- Modelled from the spec: the in-range citation markers of the
generated text, in text order. -/
def inRangeMarkers (n : Nat) (text : List GenToken) : List Nat :=
  text.filterMap fun t =>
    match t with
    | .marker k => if 1 ≤ k ∧ k ≤ n then some k else none
    | .word _ => none

/-- Keep the first occurrence of each element, given the set already
seen. -/
def firstOccAux : List Nat → List Nat → List Nat
  | [], _ => []
  | k :: l, seen =>
    if k ∈ seen then firstOccAux l seen else k :: firstOccAux l (k :: seen)

/-- The distinct elements of a list in order of first appearance. -/
def firstOccurrences (l : List Nat) : List Nat := firstOccAux l []

/-- Modelled from the spec: the Answer Synthesizer's post-generation
validation (rag.py, not among the sources).  Markers outside
1..len(passages) are stripped and produce no citation; citations are
built from the in-range markers in order of first appearance, each
carrying the fused score of its passage as relevanceScore. -/
def synthesize (cw : ContextWindow) (genText : List GenToken) : Answer :=
  let n := cw.passages.length
  { text := stripInvalidMarkers n genText
    citations :=
      (firstOccurrences (inRangeMarkers n genText)).filterMap fun k =>
        (cw.passages.get? (k - 1)).map fun p => ⟨p.passageId, p.fusedScore⟩ }

/-! ### Concrete fixtures

Small corpora and runs used by witnesses and counterexamples.  The
distance, match and rank functions stand for the PostgreSQL operators
at a particular query; any concrete choice instantiates them. -/

/-- Zero distance function (all embeddings equidistant). -/
def wDist : List ℚ → List ℚ → ℚ := fun _ _ => 0

/-- Everything lexically matches. -/
def wMatch : String → String → Bool := fun _ _ => true

/-- Zero text-search rank. -/
def wRank : String → String → ℚ := fun _ _ => 0

/-- Empty filter parameters (all three NULL). -/
def noFilters : Filters := ⟨none, none, none⟩

/-- A completed document. -/
def wDoc : Document := ⟨1, some "J", some 0, some "research-article", "completed", some 1, false⟩

/-- An embedded chunk of wDoc. -/
def wChunk : Chunk := ⟨10, 1, "x", none, some []⟩

/-- One completed document with one embedded chunk. -/
def wCorpus : Corpus := ⟨[wDoc], [wChunk]⟩

/-- The admissible vector CTE output of the wCorpus run. -/
def wVres : List VRow := mkVRows wDist [] ((vectorEligible wCorpus noFilters).take (10 * 2))

/-- The admissible keyword CTE output of the wCorpus run. -/
def wKres : List KRow := mkKRows wRank "x" ((keywordEligible wCorpus wMatch "x" noFilters).take (10 * 2))

/-- The admissible hybrid_search output of the wCorpus run at the
default weights 0.7 / 0.3. -/
def wOut : List CombinedRow := (combinedRows (7/10) (3/10) wVres wKres).take 10

/-- Fusion-level fixture: a one-row vector candidate list. -/
def fVres : List VRow := [⟨1, 1, "a", none, 1, 1⟩]

/-- Fusion-level fixture: an empty keyword candidate list. -/
def fKres : List KRow := []

/-- Fusion-level fixture: the fused output at weights 1 / 1. -/
def fOut : List CombinedRow := (combinedRows 1 1 fVres fKres).take 5

/-- Tie fixture: a document owning both chunks. -/
def cxDoc : Document := ⟨1, some "J", none, none, "completed", none, false⟩

/-- Tie fixture: chunk found only by the vector path. -/
def cxChunkA : Chunk := ⟨1, 1, "a", none, some []⟩

/-- Tie fixture: chunk with NULL embedding, found only by the keyword
path. -/
def cxChunkB : Chunk := ⟨2, 1, "b", none, none⟩

/-- Tie fixture corpus. -/
def cxCorpus : Corpus := ⟨[cxDoc], [cxChunkA, cxChunkB]⟩

/-- Tie fixture: only content "b" matches the query lexically. -/
def cxMatch : String → String → Bool := fun c _ => c == "b"

/-- Tie fixture vector CTE output: chunk 1 at rank 1. -/
def cxVres : List VRow := mkVRows wDist [] ((vectorEligible cxCorpus noFilters).take (10 * 2))

/-- Tie fixture keyword CTE output: chunk 2 at rank 1. -/
def cxKres : List KRow := mkKRows wRank "b" ((keywordEligible cxCorpus cxMatch "b" noFilters).take (10 * 2))

/-- Tie fixture: the combined row of chunk 1 (vector rank 1, keyword
sentinel 1000) at weights 1 / 1. -/
def cxRowA : CombinedRow := combineRow 1 1 (some ⟨1, 1, "a", none, 1 - wDist [] [], 1⟩, none)

/-- Tie fixture: the combined row of chunk 2 (vector sentinel 1000,
keyword rank 1) at weights 1 / 1. -/
def cxRowB : CombinedRow := combineRow 1 1 (none, some ⟨2, 1, "b", none, wRank "b" "b", 1⟩)

/-- Filter-flip fixture: journal-J1 document of chunks p and q. -/
def cx5DocJ1 : Document := ⟨1, some "J1", none, some "research-article", "completed", some 1, false⟩

/-- Filter-flip fixture: journal-J2 document of chunk r. -/
def cx5DocJ2 : Document := ⟨2, some "J2", none, some "editorial", "completed", some 1, false⟩

/-- Filter-flip fixture: chunk p, nearest to the query embedding. -/
def cx5ChunkP : Chunk := ⟨1, 1, "p", none, some [1]⟩

/-- Filter-flip fixture: chunk r, second nearest, journal J2, no
lexical match. -/
def cx5ChunkR : Chunk := ⟨2, 2, "r", none, some [2]⟩

/-- Filter-flip fixture: chunk q, third nearest, best lexical match. -/
def cx5ChunkQ : Chunk := ⟨3, 1, "q", none, some [3]⟩

/-- Filter-flip fixture corpus. -/
def cx5Corpus : Corpus := ⟨[cx5DocJ1, cx5DocJ2], [cx5ChunkP, cx5ChunkR, cx5ChunkQ]⟩

/-- cx5DocJ1 with its article_type changed, all else identical. -/
def cx5DocJ1Alt : Document := ⟨1, some "J1", none, some "letter", "completed", some 1, false⟩

/-- cx5DocJ2 with its article_type changed, all else identical. -/
def cx5DocJ2Alt : Document := ⟨2, some "J2", none, some "letter", "completed", some 1, false⟩

/-- Filter-flip fixture corpus with every article type changed:
identical to cx5Corpus except the article_type column. -/
def cx5CorpusAlt : Corpus := ⟨[cx5DocJ1Alt, cx5DocJ2Alt], [cx5ChunkP, cx5ChunkR, cx5ChunkQ]⟩

/-- Filter-flip fixture: distance is the first embedding coordinate. -/
def cx5Dist : List ℚ → List ℚ → ℚ := fun e _ => e.headD 0

/-- Filter-flip fixture: contents p and q match the query. -/
def cx5Match : String → String → Bool := fun c _ => c == "p" || c == "q"

/-- Filter-flip fixture: lexical scores q = 5, p = 4. -/
def cx5Rank : String → String → ℚ := fun c _ => if c == "q" then 5 else if c == "p" then 4 else 0

/-- Journal filter keeping only J1. -/
def cx5F1 : Filters := ⟨some ["J1"], none, none⟩

/-- Unfiltered run, vector CTE: p, r, q at ranks 1, 2, 3. -/
def cx5Vres0 : List VRow := mkVRows cx5Dist [] ((vectorEligible cx5Corpus noFilters).take (3 * 2))

/-- Filtered run, vector CTE: p, q at ranks 1, 2. -/
def cx5Vres1 : List VRow := mkVRows cx5Dist [] ((vectorEligible cx5Corpus cx5F1).take (3 * 2))

/-- Keyword CTE (same in both runs): q, p at ranks 1, 2; this is the
descending-rank ordering of the eligible rows. -/
def cx5KresPairs : List (Chunk × Document) := [(cx5ChunkQ, cx5DocJ1), (cx5ChunkP, cx5DocJ1)]

/-- Keyword CTE rows: q rank 1, p rank 2. -/
def cx5Kres : List KRow := mkKRows cx5Rank "x" (cx5KresPairs.take (3 * 2))

/-- Unfiltered run: vector row of p (rank 1). -/
def cx5VP0 : VRow := ⟨1, 1, "p", none, 1 - cx5Dist [1] [], 1⟩

/-- Unfiltered run: vector row of r (rank 2). -/
def cx5VR0 : VRow := ⟨2, 2, "r", none, 1 - cx5Dist [2] [], 2⟩

/-- Unfiltered run: vector row of q (rank 3). -/
def cx5VQ0 : VRow := ⟨3, 1, "q", none, 1 - cx5Dist [3] [], 3⟩

/-- Filtered run: vector row of q (rank 2 once r is filtered out). -/
def cx5VQ1 : VRow := ⟨3, 1, "q", none, 1 - cx5Dist [3] [], 2⟩

/-- Keyword row of q (rank 1). -/
def cx5KQ : KRow := ⟨3, 1, "q", none, cx5Rank "q" "x", 1⟩

/-- Keyword row of p (rank 2). -/
def cx5KP : KRow := ⟨1, 1, "p", none, cx5Rank "p" "x", 2⟩

/-- Unfiltered fused row of p: vector rank 1, keyword rank 2. -/
def cx5RowP0 : CombinedRow := combineRow 1 (3/2) (some cx5VP0, some cx5KP)

/-- Unfiltered fused row of r: vector rank 2, keyword sentinel. -/
def cx5RowR0 : CombinedRow := combineRow 1 (3/2) (some cx5VR0, none)

/-- Unfiltered fused row of q: vector rank 3, keyword rank 1. -/
def cx5RowQ0 : CombinedRow := combineRow 1 (3/2) (some cx5VQ0, some cx5KQ)

/-- Filtered fused row of q: vector rank 2, keyword rank 1. -/
def cx5RowQ1 : CombinedRow := combineRow 1 (3/2) (some cx5VQ1, some cx5KQ)

/-- Unfiltered admissible output (match_count 3): p, q, r by fused
score. -/
def cx5Out0 : List CombinedRow := [cx5RowP0, cx5RowQ0, cx5RowR0]

/-- Filtered admissible output (match_count 3): q, p by fused score;
p and q are eligible in both runs but their relative order flips. -/
def cx5Out1 : List CombinedRow := [cx5RowQ1, cx5RowP0]

/-- NULL-embedding fixture: a completed document. -/
def w9Doc : Document := ⟨1, some "J", none, none, "completed", none, false⟩

/-- NULL-embedding fixture: a chunk with no stored embedding. -/
def w9Chunk : Chunk := ⟨5, 1, "c", none, none⟩

/-- NULL-embedding fixture corpus. -/
def w9Corpus : Corpus := ⟨[w9Doc], [w9Chunk]⟩

/-- NULL-embedding fixture: vector CTE output (empty). -/
def w9Vres : List VRow := mkVRows wDist [] ((vectorEligible w9Corpus noFilters).take (10 * 2))

/-- NULL-embedding fixture: keyword CTE output (chunk 5 at rank 1). -/
def w9Kres : List KRow := mkKRows wRank "c" ((keywordEligible w9Corpus wMatch "c" noFilters).take (10 * 2))

/-- NULL-embedding fixture: the hybrid_search output. -/
def w9Out : List CombinedRow := (combinedRows (7/10) (3/10) w9Vres w9Kres).take 10

/-- Retracted-document fixture: retracted, quality score 0, but
processing status completed. -/
def w10Doc : Document := ⟨1, some "J", none, none, "completed", some 0, true⟩

/-- Retracted-document fixture: an embedded chunk of the retracted
document. -/
def w10Chunk : Chunk := ⟨7, 1, "c", none, some []⟩

/-- Retracted-document fixture corpus. -/
def w10Corpus : Corpus := ⟨[w10Doc], [w10Chunk]⟩

/-- Retracted-document fixture: vector CTE output. -/
def w10Vres : List VRow := mkVRows wDist [] ((vectorEligible w10Corpus noFilters).take (10 * 2))

/-- Retracted-document fixture: keyword CTE output. -/
def w10Kres : List KRow := mkKRows wRank "c" ((keywordEligible w10Corpus wMatch "c" noFilters).take (10 * 2))

/-- Retracted-document fixture: the hybrid_search output. -/
def w10Out : List CombinedRow := (combinedRows (7/10) (3/10) w10Vres w10Kres).take 10

/-- Synthesizer fixture: a three-passage context window. -/
def w8Cw : ContextWindow := ⟨[⟨11, 9/10⟩, ⟨12, 8/10⟩, ⟨13, 7/10⟩]⟩

/-- Synthesizer fixture: generated text citing passage 2 and a
hallucinated out-of-range passage 99. -/
def w8Text : List GenToken :=
  [.word "CRISPR", .marker 2, .word "edits", .marker 99, .marker 2]

/-! ### Helper lemmas -/

/-- A list of length at most one is vacuously pairwise-related. -/
lemma pairwise_len_le_one {α : Type} {R : α → α → Prop} :
    ∀ {l : List α}, l.length ≤ 1 → l.Pairwise R
  | [], _ => List.Pairwise.nil
  | [_], _ => by simp
  | _ :: _ :: _, h => by simp at h

/-- Two members of a list with equal images under an injective-on-the-
list projection are equal. -/
lemma nodup_map_unique {α β : Type} {f : α → β} {l : List α}
    (h : (l.map f).Nodup) {a b : α} (ha : a ∈ l) (hb : b ∈ l)
    (hf : f a = f b) : a = b := by
  induction l with
  | nil => cases ha
  | cons x t ih =>
    simp only [List.map_cons, List.nodup_cons] at h
    rcases List.mem_cons.mp ha with rfl | ha2
    · rcases List.mem_cons.mp hb with rfl | hb2
      · rfl
      · exact absurd (hf ▸ List.mem_map_of_mem f hb2) h.1
    · rcases List.mem_cons.mp hb with rfl | hb2
      · exact absurd (hf ▸ List.mem_map_of_mem f ha2) h.1
      · exact ih h.2 ha2 hb2

/-- Membership in the chunks-documents join. -/
lemma mem_joinPairs {corpus : Corpus} {c : Chunk} {d : Document} :
    (c, d) ∈ joinPairs corpus ↔
      c ∈ corpus.chunks ∧ d ∈ corpus.documents ∧ d.id = c.documentId := by
  simp only [joinPairs, List.mem_flatMap, List.mem_map, List.mem_filter,
    Prod.mk.injEq, beq_iff_eq]
  constructor
  · rintro ⟨c', hc', d', ⟨hd', hid⟩, rfl, rfl⟩
    exact ⟨hc', hd', hid⟩
  · rintro ⟨hc, hd, hid⟩
    exact ⟨c, hc, d, ⟨hd, hid⟩, rfl, rfl⟩

/-- Membership in the vector CTE's eligible row set unfolds to its
WHERE clause. -/
lemma mem_vectorEligible {corpus : Corpus} {f : Filters} {c : Chunk} {d : Document} :
    (c, d) ∈ vectorEligible corpus f ↔
      (c, d) ∈ joinPairs corpus ∧ c.embedding.isSome = true ∧
      d.processingStatus = "completed" ∧ passesFilters f d = true := by
  simp only [vectorEligible, List.mem_filter, Bool.and_eq_true, beq_iff_eq]
  tauto

/-- Membership in the keyword CTE's eligible row set unfolds to its
WHERE clause. -/
lemma mem_keywordEligible {corpus : Corpus} {tsMatch : String → String → Bool}
    {qt : String} {f : Filters} {c : Chunk} {d : Document} :
    (c, d) ∈ keywordEligible corpus tsMatch qt f ↔
      (c, d) ∈ joinPairs corpus ∧ tsMatch c.content qt = true ∧
      d.processingStatus = "completed" ∧ passesFilters f d = true := by
  simp only [keywordEligible, List.mem_filter, Bool.and_eq_true, beq_iff_eq]
  tauto

/-- Every vector CTE row is built from a pair of its input list. -/
lemma mem_mkVRowsAux {dist : List ℚ → List ℚ → ℚ} {qe : List ℚ} :
    ∀ {r : Nat} {l : List (Chunk × Document)} {v : VRow},
      v ∈ mkVRowsAux dist qe r l →
      ∃ cd, cd ∈ l ∧ v.id = cd.1.id ∧ v.document_id = cd.1.documentId := by
  intro r l
  induction l generalizing r with
  | nil => intro v h; cases h
  | cons a t ih =>
    obtain ⟨c, d⟩ := a
    intro v h
    rcases List.mem_cons.mp h with rfl | h2
    · exact ⟨(c, d), List.mem_cons_self _ _, rfl, rfl⟩
    · obtain ⟨cd, hcd, h1, h2⟩ := ih h2
      exact ⟨cd, List.mem_cons_of_mem _ hcd, h1, h2⟩

/-- Every keyword CTE row is built from a pair of its input list. -/
lemma mem_mkKRowsAux {tsRank : String → String → ℚ} {qt : String} :
    ∀ {r : Nat} {l : List (Chunk × Document)} {k : KRow},
      k ∈ mkKRowsAux tsRank qt r l →
      ∃ cd, cd ∈ l ∧ k.id = cd.1.id ∧ k.document_id = cd.1.documentId := by
  intro r l
  induction l generalizing r with
  | nil => intro k h; cases h
  | cons a t ih =>
    obtain ⟨c, d⟩ := a
    intro k h
    rcases List.mem_cons.mp h with rfl | h2
    · exact ⟨(c, d), List.mem_cons_self _ _, rfl, rfl⟩
    · obtain ⟨cd, hcd, h1, h2⟩ := ih h2
      exact ⟨cd, List.mem_cons_of_mem _ hcd, h1, h2⟩

/-- Any row of an admissible vector CTE output descends from a chunk
and document that satisfy the vector WHERE clause. -/
lemma vres_provenance {corpus : Corpus} {dist : List ℚ → List ℚ → ℚ} {qe : List ℚ}
    {f : Filters} {n : Nat} {vres : List VRow}
    (h : IsVectorResults corpus dist qe f n vres) {v : VRow} (hv : v ∈ vres) :
    ∃ c d, c ∈ corpus.chunks ∧ d ∈ corpus.documents ∧ d.id = c.documentId ∧
      c.embedding.isSome = true ∧ d.processingStatus = "completed" ∧
      passesFilters f d = true ∧ v.id = c.id ∧ v.document_id = c.documentId := by
  obtain ⟨l, hperm, _, rfl⟩ := h
  obtain ⟨⟨c, d⟩, hcd, h1, h2⟩ := mem_mkVRowsAux hv
  have helig : (c, d) ∈ vectorEligible corpus f :=
    hperm.subset (List.mem_of_mem_take hcd)
  obtain ⟨hjoin, hsome, hst, hpf⟩ := mem_vectorEligible.mp helig
  obtain ⟨hc, hd, hdid⟩ := mem_joinPairs.mp hjoin
  exact ⟨c, d, hc, hd, hdid, hsome, hst, hpf, h1, h2⟩

/-- Any row of an admissible keyword CTE output descends from a chunk
and document that satisfy the keyword WHERE clause. -/
lemma kres_provenance {corpus : Corpus} {tsMatch : String → String → Bool}
    {tsRank : String → String → ℚ} {qt : String} {f : Filters} {n : Nat}
    {kres : List KRow}
    (h : IsKeywordResults corpus tsMatch tsRank qt f n kres) {k : KRow} (hk : k ∈ kres) :
    ∃ c d, c ∈ corpus.chunks ∧ d ∈ corpus.documents ∧ d.id = c.documentId ∧
      tsMatch c.content qt = true ∧ d.processingStatus = "completed" ∧
      passesFilters f d = true ∧ k.id = c.id ∧ k.document_id = c.documentId := by
  obtain ⟨l, hperm, _, rfl⟩ := h
  obtain ⟨⟨c, d⟩, hcd, h1, h2⟩ := mem_mkKRowsAux hk
  have helig : (c, d) ∈ keywordEligible corpus tsMatch qt f :=
    hperm.subset (List.mem_of_mem_take hcd)
  obtain ⟨hjoin, hmatch, hst, hpf⟩ := mem_keywordEligible.mp helig
  obtain ⟨hc, hd, hdid⟩ := mem_joinPairs.mp hjoin
  exact ⟨c, d, hc, hd, hdid, hmatch, hst, hpf, h1, h2⟩

/-- Every combined row comes from a vector row (carrying its rank and
similarity) or from an unmatched keyword row (carrying the sentinel
vector rank and a NULL similarity). -/
lemma combined_provenance {vw kw : ℚ} {vres : List VRow} {kres : List KRow}
    {r : CombinedRow} (h : r ∈ combinedRows vw kw vres kres) :
    (∃ v ∈ vres, r.chunk_id = v.id ∧ r.document_id = v.document_id ∧
      r.vector_rank = v.rank ∧ r.vector_similarity = some v.similarity) ∨
    (∃ k ∈ kres, r.chunk_id = k.id ∧ r.document_id = k.document_id ∧
      r.vector_rank = 1000 ∧ r.vector_similarity = none ∧ r.keyword_rank = k.rank) := by
  simp only [combinedRows, fullOuterJoin, List.map_append, List.map_map,
    List.mem_append, List.mem_map, Function.comp] at h
  rcases h with ⟨v, hv, rfl⟩ | ⟨k, hk, rfl⟩
  · exact Or.inl ⟨v, hv, rfl, rfl, rfl, rfl⟩
  · exact Or.inr ⟨k, (List.mem_filter.mp hk).1, rfl, rfl, rfl, rfl, rfl⟩

/-- Rows of an admissible fused output are combined rows. -/
lemma fused_mem {vw kw : ℚ} {vres : List VRow} {kres : List KRow} {n : Nat}
    {out : List CombinedRow} (h : IsFusedOutput vw kw vres kres n out)
    {r : CombinedRow} (hr : r ∈ out) : r ∈ combinedRows vw kw vres kres := by
  obtain ⟨l, hperm, _, rfl⟩ := h
  exact hperm.subset (List.mem_of_mem_take hr)

/-- The one-chunk fixture run is an admissible hybrid_search result at
the default weights. -/
lemma wHybrid : IsHybridSearchResult wCorpus wDist wMatch wRank [] "x" 10
    (7/10) (3/10) noFilters wOut :=
  ⟨wVres, wKres,
   ⟨vectorEligible wCorpus noFilters, List.Perm.refl _,
    pairwise_len_le_one (by decide), rfl⟩,
   ⟨keywordEligible wCorpus wMatch "x" noFilters, List.Perm.refl _,
    pairwise_len_le_one (by decide), rfl⟩,
   ⟨combinedRows (7/10) (3/10) wVres wKres, List.Perm.refl _,
    pairwise_len_le_one (by decide), rfl⟩⟩

/-- The NULL-embedding fixture run is an admissible hybrid_search
result. -/
lemma w9Hybrid : IsHybridSearchResult w9Corpus wDist wMatch wRank [] "c" 10
    (7/10) (3/10) noFilters w9Out :=
  ⟨w9Vres, w9Kres,
   ⟨vectorEligible w9Corpus noFilters, List.Perm.refl _,
    pairwise_len_le_one (by decide), rfl⟩,
   ⟨keywordEligible w9Corpus wMatch "c" noFilters, List.Perm.refl _,
    pairwise_len_le_one (by decide), rfl⟩,
   ⟨combinedRows (7/10) (3/10) w9Vres w9Kres, List.Perm.refl _,
    pairwise_len_le_one (by decide), rfl⟩⟩

/-- The retracted-document fixture run is an admissible hybrid_search
result. -/
lemma w10Hybrid : IsHybridSearchResult w10Corpus wDist wMatch wRank [] "c" 10
    (7/10) (3/10) noFilters w10Out :=
  ⟨w10Vres, w10Kres,
   ⟨vectorEligible w10Corpus noFilters, List.Perm.refl _,
    pairwise_len_le_one (by decide), rfl⟩,
   ⟨keywordEligible w10Corpus wMatch "c" noFilters, List.Perm.refl _,
    pairwise_len_le_one (by decide), rfl⟩,
   ⟨combinedRows (7/10) (3/10) w10Vres w10Kres, List.Perm.refl _,
    pairwise_len_le_one (by decide), rfl⟩⟩

/-! ### Claims -/

/-- C2: every chunk returned by hybrid_search belongs to a document
with processing_status 'completed'; a chunk whose parent document has
any other status never appears, even if it has a stored embedding
(both CTE WHERE clauses require d.processing_status = 'completed'). -/
theorem hybrid_search_only_completed_documents
    {corpus : Corpus} {dist : List ℚ → List ℚ → ℚ}
    {tsMatch : String → String → Bool} {tsRank : String → String → ℚ}
    {qe : List ℚ} {qt : String} {n : Nat} {vw kw : ℚ} {f : Filters}
    {out : List CombinedRow}
    (hnd : (corpus.documents.map Document.id).Nodup)
    (h : IsHybridSearchResult corpus dist tsMatch tsRank qe qt n vw kw f out) :
    ∀ r ∈ out, ∀ d ∈ corpus.documents, d.id = r.document_id →
      d.processingStatus = "completed" := by
  rintro r hr d hd hid
  obtain ⟨vres, kres, hv, hk, hf⟩ := h
  have hrc := fused_mem hf hr
  rcases combined_provenance hrc with ⟨v, hvv, _, hdid, _, _⟩ | ⟨k, hkk, _, hdid, _, _, _⟩
  · obtain ⟨c, d0, _, hd0, hd0id, _, hst, _, _, hvdid⟩ := vres_provenance hv hvv
    have : d = d0 := nodup_map_unique hnd hd hd0 (by rw [hid, hdid, hvdid, ← hd0id])
    rw [this]; exact hst
  · obtain ⟨c, d0, _, hd0, hd0id, _, hst, _, _, hkdid⟩ := kres_provenance hk hkk
    have : d = d0 := nodup_map_unique hnd hd hd0 (by rw [hid, hdid, hkdid, ← hd0id])
    rw [this]; exact hst

/-- Witness for C2 at the one-chunk fixture. -/
theorem hybrid_search_only_completed_documents_witness :
    (wCorpus.documents.map Document.id).Nodup ∧
    IsHybridSearchResult wCorpus wDist wMatch wRank [] "x" 10
      (7/10) (3/10) noFilters wOut ∧
    ∀ r ∈ wOut, ∀ d ∈ wCorpus.documents, d.id = r.document_id →
      d.processingStatus = "completed" :=
  ⟨by decide, wHybrid,
   hybrid_search_only_completed_documents (by decide) wHybrid⟩

/-- C9: a chunk whose stored embedding is NULL never enters the vector
candidate set, but can be returned through the keyword path, and any
returned row for it carries the sentinel vector rank 1000 and a NULL
vector similarity.  The witness exhibits such a chunk actually being
returned. -/
theorem hybrid_search_null_embedding_via_keyword_path
    {corpus : Corpus} {dist : List ℚ → List ℚ → ℚ}
    {tsMatch : String → String → Bool} {tsRank : String → String → ℚ}
    {qe : List ℚ} {qt : String} {n : Nat} {vw kw : ℚ} {f : Filters}
    {vres : List VRow} {kres : List KRow} {out : List CombinedRow}
    (hnd : (corpus.chunks.map Chunk.id).Nodup)
    {c : Chunk} (hc : c ∈ corpus.chunks) (hemb : c.embedding = none)
    (hv : IsVectorResults corpus dist qe f n vres)
    (_hk : IsKeywordResults corpus tsMatch tsRank qt f n kres)
    (hf : IsFusedOutput vw kw vres kres n out) :
    c.id ∉ vres.map VRow.id ∧
    ∀ r ∈ out, r.chunk_id = c.id →
      r.vector_rank = 1000 ∧ r.vector_similarity = none := by
  have hnotin : c.id ∉ vres.map VRow.id := by
    intro hin
    obtain ⟨v, hvv, hvid⟩ := List.mem_map.mp hin
    obtain ⟨c', d', hc', _, _, hsome, _, _, hvid', _⟩ := vres_provenance hv hvv
    have : c' = c := nodup_map_unique hnd hc' hc (by rw [← hvid', hvid])
    rw [this, hemb] at hsome
    simp at hsome
  refine ⟨hnotin, ?_⟩
  rintro r hr hrid
  have hrc := fused_mem hf hr
  rcases combined_provenance hrc with ⟨v, hvv, hcid, _, _, _⟩ | ⟨_, _, _, _, h1000, hsim, _⟩
  · exact absurd (List.mem_map.mpr ⟨v, hvv, by rw [← hcid, hrid]⟩) hnotin
  · exact ⟨h1000, hsim⟩

/-- Witness for C9: the NULL-embedding chunk 5 is returned (it is the
only output row), with sentinel vector rank and NULL similarity. -/
theorem hybrid_search_null_embedding_via_keyword_path_witness :
    (w9Corpus.chunks.map Chunk.id).Nodup ∧
    w9Chunk ∈ w9Corpus.chunks ∧ w9Chunk.embedding = none ∧
    w9Out.map CombinedRow.chunk_id = [w9Chunk.id] ∧
    (w9Chunk.id ∉ w9Vres.map VRow.id ∧
      ∀ r ∈ w9Out, r.chunk_id = w9Chunk.id →
        r.vector_rank = 1000 ∧ r.vector_similarity = none) := by
  refine ⟨by decide, List.mem_cons_self _ _, rfl, by decide, ?_⟩
  exact hybrid_search_null_embedding_via_keyword_path (by decide)
    (List.mem_cons_self _ _) rfl
    ⟨vectorEligible w9Corpus noFilters, List.Perm.refl _,
      pairwise_len_le_one (by decide), rfl⟩
    ⟨keywordEligible w9Corpus wMatch "c" noFilters, List.Perm.refl _,
      pairwise_len_le_one (by decide), rfl⟩
    ⟨combinedRows (7/10) (3/10) w9Vres w9Kres, List.Perm.refl _,
      pairwise_len_le_one (by decide), rfl⟩

/-- C10: retrieval eligibility does not consult the documents table's
retracted flag or quality_score — here a chunk of a retracted,
quality-0 document whose processing_status is 'completed' appears in
an admissible hybrid_search output. -/
theorem hybrid_search_ignores_retraction_and_quality :
    IsHybridSearchResult w10Corpus wDist wMatch wRank [] "c" 10
      (7/10) (3/10) noFilters w10Out ∧
    w10Doc ∈ w10Corpus.documents ∧ w10Doc.retracted = true ∧
    w10Doc.qualityScore = some 0 ∧ w10Doc.processingStatus = "completed" ∧
    w10Chunk.documentId = w10Doc.id ∧
    w10Out.map CombinedRow.chunk_id = [w10Chunk.id] :=
  ⟨w10Hybrid, List.mem_cons_self _ _, rfl, rfl, rfl, rfl, by decide⟩

/-- C5 (amended): the filters hybrid_search accepts — journal set and
date range — are applied identically to both retrieval paths: a chunk
whose document fails any supplied filter enters neither the vector nor
the keyword candidate set and never appears in the output.
(hybrid_search has no article-type filter parameter, and — see the
counterexample — filters can change the relative ranking of the
passages that remain eligible, because ranks are recomputed on the
filtered lists.) -/
theorem hybrid_search_filters_exclude_from_both_paths
    {corpus : Corpus} {dist : List ℚ → List ℚ → ℚ}
    {tsMatch : String → String → Bool} {tsRank : String → String → ℚ}
    {qe : List ℚ} {qt : String} {n : Nat} {vw kw : ℚ} {f : Filters}
    {vres : List VRow} {kres : List KRow} {out : List CombinedRow}
    (hndD : (corpus.documents.map Document.id).Nodup)
    (hndC : (corpus.chunks.map Chunk.id).Nodup)
    {c : Chunk} {d : Document} (hc : c ∈ corpus.chunks)
    (hd : d ∈ corpus.documents) (hdid : d.id = c.documentId)
    (hfail : passesFilters f d = false)
    (hv : IsVectorResults corpus dist qe f n vres)
    (hk : IsKeywordResults corpus tsMatch tsRank qt f n kres)
    (hf : IsFusedOutput vw kw vres kres n out) :
    c.id ∉ vres.map VRow.id ∧ c.id ∉ kres.map KRow.id ∧
    c.id ∉ out.map CombinedRow.chunk_id := by
  have hvnot : c.id ∉ vres.map VRow.id := by
    intro hin
    obtain ⟨v, hvv, hvid⟩ := List.mem_map.mp hin
    obtain ⟨c', d', hc', hd', hd'id, _, _, hpf, hvid', _⟩ := vres_provenance hv hvv
    have hcc : c' = c := nodup_map_unique hndC hc' hc (by rw [← hvid', hvid])
    have hdd : d' = d := nodup_map_unique hndD hd' hd (by rw [hd'id, hcc, ← hdid])
    rw [hdd, hfail] at hpf
    cases hpf
  have hknot : c.id ∉ kres.map KRow.id := by
    intro hin
    obtain ⟨k, hkk, hkid⟩ := List.mem_map.mp hin
    obtain ⟨c', d', hc', hd', hd'id, _, _, hpf, hkid', _⟩ := kres_provenance hk hkk
    have hcc : c' = c := nodup_map_unique hndC hc' hc (by rw [← hkid', hkid])
    have hdd : d' = d := nodup_map_unique hndD hd' hd (by rw [hd'id, hcc, ← hdid])
    rw [hdd, hfail] at hpf
    cases hpf
  refine ⟨hvnot, hknot, ?_⟩
  intro hin
  obtain ⟨r, hr, hrid⟩ := List.mem_map.mp hin
  have hrc := fused_mem hf hr
  rcases combined_provenance hrc with ⟨v, hvv, hcid, _, _, _⟩ | ⟨k, hkk, hcid, _, _, _, _⟩
  · exact hvnot (List.mem_map.mpr ⟨v, hvv, by rw [← hcid, hrid]⟩)
  · exact hknot (List.mem_map.mpr ⟨k, hkk, by rw [← hcid, hrid]⟩)

/-- Unfiltered filter-flip run: the vector CTE relation holds. -/
lemma cx5V0 : IsVectorResults cx5Corpus cx5Dist [] noFilters 3 cx5Vres0 :=
  ⟨vectorEligible cx5Corpus noFilters, List.Perm.refl _, by decide, rfl⟩

/-- Filtered filter-flip run: the vector CTE relation holds. -/
lemma cx5V1 : IsVectorResults cx5Corpus cx5Dist [] cx5F1 3 cx5Vres1 :=
  ⟨vectorEligible cx5Corpus cx5F1, List.Perm.refl _, by decide, rfl⟩

/-- Unfiltered filter-flip run: the keyword CTE relation holds with q
ranked above p. -/
lemma cx5K0 : IsKeywordResults cx5Corpus cx5Match cx5Rank "x" noFilters 3 cx5Kres :=
  ⟨cx5KresPairs, List.Perm.swap (cx5ChunkP, cx5DocJ1) (cx5ChunkQ, cx5DocJ1) [],
   by decide, rfl⟩

/-- Filtered filter-flip run: the keyword CTE output is unchanged. -/
lemma cx5K1 : IsKeywordResults cx5Corpus cx5Match cx5Rank "x" cx5F1 3 cx5Kres :=
  ⟨cx5KresPairs, List.Perm.swap (cx5ChunkP, cx5DocJ1) (cx5ChunkQ, cx5DocJ1) [],
   by decide, rfl⟩

/-- Unfiltered filter-flip run: p, q, r is the descending fused order. -/
lemma cx5Sorted0 : ScoreSortedDesc [cx5RowP0, cx5RowQ0, cx5RowR0] := by
  refine List.Pairwise.cons ?_ (List.Pairwise.cons ?_ (List.pairwise_singleton _ _))
  · rintro b hb
    rcases List.mem_cons.mp hb with rfl | hb2
    · show rrfScore 1 (3/2) 3 1 ≤ rrfScore 1 (3/2) 1 2
      norm_num [rrfScore, rrfTerm]
    · rcases List.mem_cons.mp hb2 with rfl | hb3
      · show rrfScore 1 (3/2) 2 1000 ≤ rrfScore 1 (3/2) 1 2
        norm_num [rrfScore, rrfTerm]
      · cases hb3
  · rintro b hb
    rcases List.mem_cons.mp hb with rfl | hb2
    · show rrfScore 1 (3/2) 2 1000 ≤ rrfScore 1 (3/2) 3 1
      norm_num [rrfScore, rrfTerm]
    · cases hb2

/-- Filtered filter-flip run: q, p is the descending fused order. -/
lemma cx5Sorted1 : ScoreSortedDesc [cx5RowQ1, cx5RowP0] := by
  refine List.Pairwise.cons ?_ (List.pairwise_singleton _ _)
  rintro b hb
  rcases List.mem_cons.mp hb with rfl | hb2
  · show rrfScore 1 (3/2) 1 2 ≤ rrfScore 1 (3/2) 2 1
    norm_num [rrfScore, rrfTerm]
  · cases hb2

/-- Unfiltered filter-flip run: the fused-output relation holds. -/
lemma cx5Fused0 : IsFusedOutput 1 (3/2) cx5Vres0 cx5Kres 3 cx5Out0 :=
  ⟨[cx5RowP0, cx5RowQ0, cx5RowR0],
   List.Perm.cons cx5RowP0 (List.Perm.swap cx5RowR0 cx5RowQ0 []),
   cx5Sorted0, rfl⟩

/-- Filtered filter-flip run: the fused-output relation holds. -/
lemma cx5Fused1 : IsFusedOutput 1 (3/2) cx5Vres1 cx5Kres 3 cx5Out1 :=
  ⟨[cx5RowQ1, cx5RowP0],
   List.Perm.swap cx5RowP0 cx5RowQ1 [],
   cx5Sorted1, rfl⟩

/-- Article-type-changed corpus: vector CTE relation with the SAME
output rows (nothing reads article_type). -/
lemma cx5V0Alt : IsVectorResults cx5CorpusAlt cx5Dist [] noFilters 3 cx5Vres0 :=
  ⟨vectorEligible cx5CorpusAlt noFilters, List.Perm.refl _, by decide, rfl⟩

/-- Article-type-changed corpus: keyword CTE relation with the SAME
output rows. -/
lemma cx5K0Alt : IsKeywordResults cx5CorpusAlt cx5Match cx5Rank "x" noFilters 3 cx5Kres :=
  ⟨[(cx5ChunkQ, cx5DocJ1Alt), (cx5ChunkP, cx5DocJ1Alt)],
   List.Perm.swap (cx5ChunkP, cx5DocJ1Alt) (cx5ChunkQ, cx5DocJ1Alt) [],
   by decide, rfl⟩

/-- C5 counterexample: chunks 1 (p) and 3 (q) are eligible both with
and without the journal filter, yet the unfiltered admissible output
orders p before q while the filtered one orders q before p — applying
a filter changes the relative ranking of the passages that remain
eligible, because ROW_NUMBER ranks are recomputed on the filtered
lists.  The last conjunct: changing every document's article_type
leaves the very same output admissible — hybrid_search has no
article-type filter. -/
theorem hybrid_search_filter_reranking_counterexample :
    IsHybridSearchResult cx5Corpus cx5Dist cx5Match cx5Rank [] "x" 3 1 (3/2)
      noFilters cx5Out0 ∧
    IsHybridSearchResult cx5Corpus cx5Dist cx5Match cx5Rank [] "x" 3 1 (3/2)
      cx5F1 cx5Out1 ∧
    cx5Out0.map CombinedRow.chunk_id = [1, 3, 2] ∧
    cx5Out1.map CombinedRow.chunk_id = [3, 1] ∧
    IsHybridSearchResult cx5CorpusAlt cx5Dist cx5Match cx5Rank [] "x" 3 1 (3/2)
      noFilters cx5Out0 :=
  ⟨⟨cx5Vres0, cx5Kres, cx5V0, cx5K0, cx5Fused0⟩,
   ⟨cx5Vres1, cx5Kres, cx5V1, cx5K1, cx5Fused1⟩,
   by decide, by decide,
   ⟨cx5Vres0, cx5Kres, cx5V0Alt, cx5K0Alt, cx5Fused0⟩⟩

/-- Witness for the amended C5 at the filtered filter-flip run: chunk
r's document fails the journal filter, so chunk 2 is in neither
candidate set and not in the output. -/
theorem hybrid_search_filters_exclude_from_both_paths_witness :
    (cx5Corpus.documents.map Document.id).Nodup ∧
    (cx5Corpus.chunks.map Chunk.id).Nodup ∧
    cx5ChunkR ∈ cx5Corpus.chunks ∧ cx5DocJ2 ∈ cx5Corpus.documents ∧
    cx5DocJ2.id = cx5ChunkR.documentId ∧
    passesFilters cx5F1 cx5DocJ2 = false ∧
    (cx5ChunkR.id ∉ cx5Vres1.map VRow.id ∧ cx5ChunkR.id ∉ cx5Kres.map KRow.id ∧
      cx5ChunkR.id ∉ cx5Out1.map CombinedRow.chunk_id) :=
  ⟨by decide, by decide, by decide, by decide, rfl, by decide,
   hybrid_search_filters_exclude_from_both_paths (c := cx5ChunkR) (d := cx5DocJ2)
     (by decide) (by decide) (by decide) (by decide) rfl (by decide)
     cx5V1 cx5K1 cx5Fused1⟩

/-- Tie fixture: the vector CTE relation holds. -/
lemma cxV : IsVectorResults cxCorpus wDist [] noFilters 10 cxVres :=
  ⟨vectorEligible cxCorpus noFilters, List.Perm.refl _,
   pairwise_len_le_one (by decide), rfl⟩

/-- Tie fixture: the keyword CTE relation holds. -/
lemma cxK : IsKeywordResults cxCorpus cxMatch wRank "b" noFilters 10 cxKres :=
  ⟨keywordEligible cxCorpus cxMatch "b" noFilters, List.Perm.refl _,
   pairwise_len_le_one (by decide), rfl⟩

/-- Tie fixture: the two combined rows have equal fused scores (their
vector and keyword ranks are mirrored and the weights are equal). -/
lemma cxScoreEq : cxRowA.rrf_score = cxRowB.rrf_score := by
  show rrfScore 1 1 1 1000 = rrfScore 1 1 1000 1
  simp only [rrfScore]
  ring

/-- Tie fixture: chunk 1 first is an admissible descending order. -/
lemma cxFusedAB : IsFusedOutput 1 1 cxVres cxKres 10 [cxRowA, cxRowB] :=
  ⟨[cxRowA, cxRowB], List.Perm.refl _,
   List.Pairwise.cons
     (fun b hb => by
       rcases List.mem_cons.mp hb with rfl | hb2
       · exact le_of_eq cxScoreEq.symm
       · cases hb2)
     (List.pairwise_singleton _ _), rfl⟩

/-- Tie fixture: chunk 2 first is also an admissible descending
order. -/
lemma cxFusedBA : IsFusedOutput 1 1 cxVres cxKres 10 [cxRowB, cxRowA] :=
  ⟨[cxRowB, cxRowA], List.Perm.swap cxRowA cxRowB [],
   List.Pairwise.cons
     (fun b hb => by
       rcases List.mem_cons.mp hb with rfl | hb2
       · exact le_of_eq cxScoreEq
       · cases hb2)
     (List.pairwise_singleton _ _), rfl⟩

/-- C3 counterexample: an admissible hybrid_search output lists the
row of chunk 2 (vector rank 1000) before the equal-scored row of
chunk 1 (vector rank 1, smaller id) — the ORDER BY names no tie-break,
so the claimed vector-rank/id tie-break does not hold. -/
theorem hybrid_search_tie_break_counterexample :
    IsHybridSearchResult cxCorpus wDist cxMatch wRank [] "b" 10 1 1
      noFilters [cxRowB, cxRowA] ∧
    cxRowA.rrf_score = cxRowB.rrf_score ∧
    cxRowA.vector_rank < cxRowB.vector_rank ∧
    cxRowA.chunk_id < cxRowB.chunk_id :=
  ⟨⟨cxVres, cxKres, cxV, cxK, cxFusedBA⟩, cxScoreEq, by decide, by decide⟩

/-- C6 counterexample: for the same corpus, query and weights, two
different ordered outputs are both admissible hybrid_search results —
the fusion step is not deterministic on equal fused scores. -/
theorem hybrid_search_fusion_nondeterminism_counterexample :
    IsHybridSearchResult cxCorpus wDist cxMatch wRank [] "b" 10 1 1
      noFilters [cxRowA, cxRowB] ∧
    IsHybridSearchResult cxCorpus wDist cxMatch wRank [] "b" 10 1 1
      noFilters [cxRowB, cxRowA] ∧
    ([cxRowA, cxRowB] : List CombinedRow) ≠ [cxRowB, cxRowA] :=
  ⟨⟨cxVres, cxKres, cxV, cxK, cxFusedAB⟩,
   ⟨cxVres, cxKres, cxV, cxK, cxFusedBA⟩,
   fun h => absurd (congrArg (List.map CombinedRow.chunk_id) h) (by decide)⟩

/-- C3 (amended): every admissible hybrid_search output is sorted
descending by fused RRF score; the ORDER BY specifies no further key,
so the order of equal-score passages is unspecified. -/
theorem hybrid_search_sorted_by_rrf_desc
    {vw kw : ℚ} {vres : List VRow} {kres : List KRow} {n : Nat}
    {out : List CombinedRow} (h : IsFusedOutput vw kw vres kres n out) :
    ScoreSortedDesc out := by
  obtain ⟨l, _, hs, rfl⟩ := h
  exact List.Pairwise.sublist (List.take_sublist n l) hs

/-- The one-row fusion fixture is an admissible fused output. -/
lemma fFused : IsFusedOutput 1 1 fVres fKres 5 fOut :=
  ⟨combinedRows 1 1 fVres fKres, List.Perm.refl _,
   pairwise_len_le_one (by decide), rfl⟩

/-- Witness for the amended C3 at the one-row fusion fixture. -/
theorem hybrid_search_sorted_by_rrf_desc_witness :
    IsFusedOutput 1 1 fVres fKres 5 fOut ∧ ScoreSortedDesc fOut :=
  ⟨fFused, hybrid_search_sorted_by_rrf_desc fFused⟩

/-- find? of a positionally-ranked row list returns the rank
s + (first index of the id), tracked through an arbitrary starting
rank s. -/
lemma find?_proj_eq_findIdx? {α : Type} (rk idf : α → Nat) (p : Nat) :
    ∀ (l : List α) (s : Nat), l.map rk = List.range' s l.length →
      (l.find? fun v => idf v == p).map rk =
        ((l.map idf).findIdx? (· == p)).map (· + s)
  | [], _, _ => rfl
  | a :: t, s, h => by
    rw [List.map_cons, List.length_cons, List.range'_succ] at h
    injection h with h1 h2
    by_cases hp : (idf a == p) = true
    · rw [List.find?_cons_of_pos (p := fun v => idf v == p) t hp,
        List.map_cons, List.findIdx?_cons]
      simp only [hp, if_true, Option.map_some', h1]
      simp
    · rw [List.find?_cons_of_neg (p := fun v => idf v == p) t hp,
        List.map_cons, List.findIdx?_cons]
      simp only [hp, if_false]
      rw [List.findIdx?_succ, find?_proj_eq_findIdx? rk idf p t (s + 1) h2]
      cases (t.map idf).findIdx? (· == p) with
      | none => rfl
      | some i =>
        show some (i + (s + 1)) = some (i + 1 + s)
        exact congrArg some (by omega)

/-- With positional ranks, the vector-side COALESCE rank of a passage
is its 1-based position (or the sentinel). -/
lemma rankFieldV_eq_posRank {vres : List VRow}
    (h : vres.map VRow.rank = List.range' 1 vres.length) (p : Nat) :
    rankFieldV vres p = posRank (vres.map VRow.id) p := by
  have hh := find?_proj_eq_findIdx? VRow.rank VRow.id p vres 1 h
  unfold rankFieldV posRank
  cases hf : vres.find? fun v => v.id == p with
  | none =>
    rw [hf] at hh
    cases hi : (vres.map VRow.id).findIdx? (· == p) with
    | none => rfl
    | some i => rw [hi] at hh; simp at hh
  | some v =>
    rw [hf] at hh
    cases hi : (vres.map VRow.id).findIdx? (· == p) with
    | none => rw [hi] at hh; simp at hh
    | some i =>
      rw [hi] at hh
      simp only [Option.map_some', Option.some.injEq] at hh
      show v.rank = i + 1
      exact hh

/-- With positional ranks, the keyword-side COALESCE rank of a passage
is its 1-based position (or the sentinel). -/
lemma rankFieldK_eq_posRank {kres : List KRow}
    (h : kres.map KRow.rank = List.range' 1 kres.length) (p : Nat) :
    rankFieldK kres p = posRank (kres.map KRow.id) p := by
  have hh := find?_proj_eq_findIdx? KRow.rank KRow.id p kres 1 h
  unfold rankFieldK posRank
  cases hf : kres.find? fun k => k.id == p with
  | none =>
    rw [hf] at hh
    cases hi : (kres.map KRow.id).findIdx? (· == p) with
    | none => rfl
    | some i => rw [hi] at hh; simp at hh
  | some k =>
    rw [hf] at hh
    cases hi : (kres.map KRow.id).findIdx? (· == p) with
    | none => rw [hi] at hh; simp at hh
    | some i =>
      rw [hi] at hh
      simp only [Option.map_some', Option.some.injEq] at hh
      show k.rank = i + 1
      exact hh

/-- Every passage of the union of the two candidate sets owns a
combined row scored with the COALESCE ranks of the two sides. -/
lemma combined_row_for_mem_union (vw kw : ℚ) {vres : List VRow}
    {kres : List KRow} {p : Nat}
    (hp : p ∈ vres.map VRow.id ∨ p ∈ kres.map KRow.id) :
    ∃ r ∈ combinedRows vw kw vres kres, r.chunk_id = p ∧
      r.rrf_score = rrfScore vw kw (rankFieldV vres p) (rankFieldK kres p) := by
  cases hfv : vres.find? fun v => v.id == p with
  | some v =>
    have hvp : v.id = p := by simpa using List.find?_some hfv
    refine ⟨combineRow vw kw (some v, kres.find? fun k => k.id == v.id), ?_, hvp, ?_⟩
    · exact List.mem_map_of_mem _
        (List.mem_append_left _ (List.mem_map_of_mem _ (List.mem_of_find?_eq_some hfv)))
    · show rrfScore vw kw v.rank
        (((kres.find? fun k => k.id == v.id).map KRow.rank).getD 1000) = _
      rw [hvp]
      have hv1 : rankFieldV vres p = v.rank := by
        simp only [rankFieldV, hfv]
      have hk1 : ((kres.find? fun k => k.id == p).map KRow.rank).getD 1000 =
          rankFieldK kres p := by
        simp only [rankFieldK]
        cases kres.find? fun k => k.id == p with
        | none => rfl
        | some k => rfl
      rw [hv1, hk1]
  | none =>
    have hpk : p ∈ kres.map KRow.id := by
      rcases hp with hpv | hpk
      · exfalso
        obtain ⟨v, hv, hvid⟩ := List.mem_map.mp hpv
        have := List.find?_eq_none.mp hfv v hv
        simp [hvid] at this
      · exact hpk
    obtain ⟨k, hkk, hkid⟩ := List.mem_map.mp hpk
    have hks : (kres.find? fun x => x.id == p).isSome :=
      List.find?_isSome.mpr ⟨k, hkk, by simp [hkid]⟩
    obtain ⟨k0, hfk⟩ := Option.isSome_iff_exists.mp hks
    have hk0 : k0.id = p := by simpa using List.find?_some hfk
    refine ⟨combineRow vw kw (none, some k0), ?_, hk0, ?_⟩
    · apply List.mem_map_of_mem
      apply List.mem_append_right
      apply List.mem_map_of_mem
      refine List.mem_filter.mpr ⟨List.mem_of_find?_eq_some hfk, ?_⟩
      rw [Bool.not_eq_true']
      rw [List.any_eq_false]
      intro v hv
      have := List.find?_eq_none.mp hfv v hv
      rw [hk0]
      exact this
    · show rrfScore vw kw 1000 k0.rank = _
      have hv1 : rankFieldV vres p = 1000 := by
        simp only [rankFieldV, hfv]
      have hk1 : rankFieldK kres p = k0.rank := by
        simp only [rankFieldK, hfk]
      rw [hv1, hk1]

/-- C1: each passage of the union of the two candidate lists is
assigned the fused score
vectorWeight * (1 / (60 + vectorRank)) + keywordWeight * (1 / (60 + lexicalRank)),
where each rank is the passage's 1-based position in that candidate
list and a passage absent from one list gets the sentinel 1000 there.
The two positional-rank hypotheses are exactly what ROW_NUMBER()
guarantees for CTE outputs. -/
theorem hybrid_search_rrf_score_formula {vres : List VRow} {kres : List KRow}
    (vw kw : ℚ) {p : Nat}
    (hv : vres.map VRow.rank = List.range' 1 vres.length)
    (hk : kres.map KRow.rank = List.range' 1 kres.length)
    (hp : p ∈ vres.map VRow.id ∨ p ∈ kres.map KRow.id) :
    ∃ r ∈ combinedRows vw kw vres kres, r.chunk_id = p ∧
      r.rrf_score = vw * (1 / (60 + (posRank (vres.map VRow.id) p : ℚ))) +
                    kw * (1 / (60 + (posRank (kres.map KRow.id) p : ℚ))) := by
  obtain ⟨r, hr, hcid, hscore⟩ := combined_row_for_mem_union vw kw hp
  refine ⟨r, hr, hcid, ?_⟩
  rw [hscore, rankFieldV_eq_posRank hv, rankFieldK_eq_posRank hk]
  rfl

/-- Witness for C1 at the one-row fusion fixture: passage 1 has vector
rank 1 and keyword sentinel 1000. -/
theorem hybrid_search_rrf_score_formula_witness :
    (fVres.map VRow.rank = List.range' 1 fVres.length) ∧
    (fKres.map KRow.rank = List.range' 1 fKres.length) ∧
    ((1 : Nat) ∈ fVres.map VRow.id ∨ (1 : Nat) ∈ fKres.map KRow.id) ∧
    ∃ r ∈ combinedRows 1 1 fVres fKres, r.chunk_id = 1 ∧
      r.rrf_score = 1 * (1 / (60 + (posRank (fVres.map VRow.id) 1 : ℚ))) +
                    1 * (1 / (60 + (posRank (fKres.map KRow.id) 1 : ℚ))) :=
  ⟨by decide, by decide, by decide,
   hybrid_search_rrf_score_formula 1 1 (by decide) (by decide) (by decide)⟩

/-- C4: union semantics — every passage of either candidate list has a
combined (pre-truncation) row, and the final output has at most
match_count rows (the LIMIT). -/
theorem hybrid_search_union_and_limit
    {vw kw : ℚ} {vres : List VRow} {kres : List KRow} {n : Nat}
    {out : List CombinedRow} (h : IsFusedOutput vw kw vres kres n out) :
    (∀ p, (p ∈ vres.map VRow.id ∨ p ∈ kres.map KRow.id) →
      ∃ r ∈ combinedRows vw kw vres kres, r.chunk_id = p) ∧
    out.length ≤ n := by
  constructor
  · intro p hp
    obtain ⟨r, hr, hcid, _⟩ := combined_row_for_mem_union vw kw hp
    exact ⟨r, hr, hcid⟩
  · obtain ⟨l, _, _, rfl⟩ := h
    exact List.length_take_le n l

/-- Witness for C4 at the one-row fusion fixture. -/
theorem hybrid_search_union_and_limit_witness :
    IsFusedOutput 1 1 fVres fKres 5 fOut ∧
    (∀ p, (p ∈ fVres.map VRow.id ∨ p ∈ fKres.map KRow.id) →
      ∃ r ∈ combinedRows 1 1 fVres fKres, r.chunk_id = p) ∧
    fOut.length ≤ 5 :=
  ⟨fFused, hybrid_search_union_and_limit fFused⟩

/-- Two sorted-descending rational lists that are permutations of each
other are equal. -/
lemma sorted_desc_rat_eq {l1 l2 : List ℚ} (hp : l1.Perm l2)
    (h1 : l1.Pairwise fun a b => b ≤ a) (h2 : l2.Pairwise fun a b => b ≤ a) :
    l1 = l2 := by
  haveI : IsAntisymm ℚ fun a b => b ≤ a := ⟨fun a b x y => le_antisymm y x⟩
  exact List.eq_of_perm_of_sorted hp h1 h2

/-- Permuted lists with equal, duplicate-free projections are equal. -/
lemma perm_eq_of_map_eq {α β : Type} {f : α → β} :
    ∀ {l1 l2 : List α}, l1.Perm l2 → l1.map f = l2.map f →
      (l1.map f).Nodup → l1 = l2
  | [], [], _, _, _ => rfl
  | [], _ :: _, hp, _, _ => by simpa using hp.length_eq
  | _ :: _, [], hp, _, _ => by simpa using hp.length_eq
  | a :: t1, b :: t2, hp, hm, hnd => by
    rw [List.map_cons, List.map_cons] at hm
    injection hm with hm1 hm2
    rw [List.map_cons, List.nodup_cons] at hnd
    have hab : a = b := by
      have hbmem : b ∈ a :: t1 := hp.symm.subset (List.mem_cons_self _ _)
      rcases List.mem_cons.mp hbmem with rfl | hbt
      · rfl
      · exact absurd (hm1 ▸ List.mem_map_of_mem f hbt) hnd.1
    subst hab
    rw [perm_eq_of_map_eq hp.cons_inv hm2 hnd.2]

/-- C6 (amended): for fixed candidate lists and weights the fusion
step is deterministic up to the order of equal-score ties — any two
admissible outputs carry the same fused-score sequence, and when all
combined fused scores are pairwise distinct the outputs are
identical. -/
theorem hybrid_search_fusion_deterministic_up_to_ties
    {vw kw : ℚ} {vres : List VRow} {kres : List KRow} {n : Nat}
    {out1 out2 : List CombinedRow}
    (h1 : IsFusedOutput vw kw vres kres n out1)
    (h2 : IsFusedOutput vw kw vres kres n out2) :
    out1.map CombinedRow.rrf_score = out2.map CombinedRow.rrf_score ∧
    (((combinedRows vw kw vres kres).map CombinedRow.rrf_score).Nodup →
      out1 = out2) := by
  obtain ⟨l1, hp1, hs1, rfl⟩ := h1
  obtain ⟨l2, hp2, hs2, rfl⟩ := h2
  have hll : l1.Perm l2 := hp1.trans hp2.symm
  have hmap : l1.map CombinedRow.rrf_score = l2.map CombinedRow.rrf_score :=
    sorted_desc_rat_eq (hll.map _)
      (List.Pairwise.map _ (fun a b h => h) hs1)
      (List.Pairwise.map _ (fun a b h => h) hs2)
  constructor
  · rw [List.map_take, List.map_take, hmap]
  · intro hnd
    have hnd1 : (l1.map CombinedRow.rrf_score).Nodup :=
      ((hp1.map CombinedRow.rrf_score).nodup_iff).mpr hnd
    rw [perm_eq_of_map_eq hll hmap hnd1]

/-- Witness for the amended C6 at the one-row fusion fixture. -/
theorem hybrid_search_fusion_deterministic_up_to_ties_witness :
    IsFusedOutput 1 1 fVres fKres 5 fOut ∧
    (fOut.map CombinedRow.rrf_score = fOut.map CombinedRow.rrf_score ∧
     (((combinedRows 1 1 fVres fKres).map CombinedRow.rrf_score).Nodup →
       fOut = fOut)) :=
  ⟨fFused, hybrid_search_fusion_deterministic_up_to_ties fFused fFused⟩

/-- C7: the rrf_score expression is monotone — improving (lowering)
either rank, with non-negative weights and the other rank not worse,
never decreases the fused score. -/
theorem rrf_score_monotone_in_rank (vw kw : ℚ) (hvw : 0 ≤ vw) (hkw : 0 ≤ kw)
    {vr vr' kr kr' : Nat} (hv : vr' ≤ vr) (hk : kr' ≤ kr) :
    rrfScore vw kw vr kr ≤ rrfScore vw kw vr' kr' := by
  have hterm : ∀ {a b : Nat}, a ≤ b → rrfTerm b ≤ rrfTerm a := by
    intro a b hab
    unfold rrfTerm
    apply one_div_le_one_div_of_le
    · positivity
    · have : (a : ℚ) ≤ b := Nat.cast_le.mpr hab
      linarith
  exact add_le_add (mul_le_mul_of_nonneg_left (hterm hv) hvw)
    (mul_le_mul_of_nonneg_left (hterm hk) hkw)

/-- Witness for C7 at the default weights: improving vector rank
2 to 1 and keyword rank 4 to 3 does not decrease the score. -/
theorem rrf_score_monotone_in_rank_witness :
    (0 : ℚ) ≤ 7/10 ∧ (0 : ℚ) ≤ 3/10 ∧ (1 : Nat) ≤ 2 ∧ (3 : Nat) ≤ 4 ∧
    rrfScore (7/10) (3/10) 2 4 ≤ rrfScore (7/10) (3/10) 1 3 :=
  ⟨by norm_num, by norm_num, by decide, by decide,
   rrf_score_monotone_in_rank (7/10) (3/10) (by norm_num) (by norm_num)
     (by decide) (by decide)⟩

/-- C8: citation soundness of the Answer Synthesizer — every citation
of a synthesized answer refers to a passage of the context window
passed in (and carries its fused score as relevanceScore), and a
generated marker whose index exceeds the window size is stripped from
the output text and produces no citation. -/
theorem synthesize_citation_soundness (cw : ContextWindow) (genText : List GenToken) :
    (∀ c ∈ (synthesize cw genText).citations,
      ∃ q ∈ cw.passages, q.passageId = c.passageId ∧
        c.relevanceScore = q.fusedScore) ∧
    (∀ k, cw.passages.length < k →
      GenToken.marker k ∉ (synthesize cw genText).text) := by
  constructor
  · intro c hc
    simp only [synthesize, List.mem_filterMap] at hc
    obtain ⟨k, _, hk⟩ := hc
    rw [Option.map_eq_some'] at hk
    obtain ⟨q, hq, rfl⟩ := hk
    exact ⟨q, List.get?_mem hq, rfl, rfl⟩
  · intro k hk hmem
    simp only [synthesize, stripInvalidMarkers, List.mem_filter] at hmem
    have h2 := hmem.2
    simp only [decide_eq_true_eq] at h2
    omega

/-- Witness for C8 at the spec's example: a three-passage window and
text carrying the hallucinated marker 99 — the marker is stripped and
only passage 2's citation remains. -/
theorem synthesize_citation_soundness_witness :
    GenToken.marker 99 ∉ (synthesize w8Cw w8Text).text ∧
    (∀ c ∈ (synthesize w8Cw w8Text).citations,
      ∃ q ∈ w8Cw.passages, q.passageId = c.passageId ∧
        c.relevanceScore = q.fusedScore) ∧
    (synthesize w8Cw w8Text).text =
      [.word "CRISPR", .marker 2, .word "edits", .marker 2] ∧
    (synthesize w8Cw w8Text).citations.map Citation.passageId = [12] :=
  ⟨(synthesize_citation_soundness w8Cw w8Text).2 99 (by decide),
   (synthesize_citation_soundness w8Cw w8Text).1,
   by decide, by decide⟩

end Oros
